import Mathlib

/-!
Verification of the run orchestrator (`src/lighthouse-core/runner.js`).

The JavaScript source is shallowly embedded: JS objects become structures or
association lists, thrown exceptions become `Except`, the sequential audit loop
becomes `List.map` (each audit step is total because its `try`/`catch` is a
`match`), and timestamps (JS doubles) become exact rationals with an explicit
round-to-hundredths step for `toFixed(2)`.

External collaborators that are not part of this repository (the gather runner,
the asset saver, `Audit.generateAuditResult`/`generateErrorAuditResult` and
`Audit.DEFAULT_PASS` from `audits/audit.js`, the URL shim, the logger's timing
store) are modelled from the specification; each such definition carries a doc
comment saying so.
-/

/-- A `gatherMode`/`auditMode` settings value: JS `undefined`/`false` (off),
`true` (on), or a string path override (usage like `-GA=./custom-folder`). -/
inductive ModeFlag where
  | off
  | on
  | pathOverride (p : String)
deriving DecidableEq

/-- JS truthiness of a mode flag: `undefined`/`false` are falsy, `true` is
truthy, a string is truthy unless it is empty. -/
def ModeFlag.isTruthy : ModeFlag → Bool
  | .off => false
  | .on => true
  | .pathOverride p => p ≠ ""

/-- Whether the flag is a string path (JS `typeof x === 'string'`). -/
def ModeFlag.pathValue : ModeFlag → Option String
  | .pathOverride p => some p
  | _ => none

/-- `LH.Config.Settings`: the named fields are the ones the runner reads or
overrides; every other (audit-tuning) field is kept opaquely in `rest` as an
association list of field name to value. -/
structure Settings where
  locale : Option String
  gatherMode : ModeFlag
  auditMode : ModeFlag
  output : List String
  budgets : Option String
  rest : List (String × String)
deriving DecidableEq

/-- An `Error` value stored as an artifact.  `isLHError` records whether the
value is an instance of the `LHError` subclass (`lib/lh-error.js`, an external
collaborator; modelled from the spec as a tagged error variant carrying
`{code, message, friendlyMessage?}` and the promote-to-run-level flag
`lhrRuntimeError`). -/
structure LHErrorData where
  code : String
  message : String
  friendlyMessage : Option String
  lhrRuntimeError : Bool
  isLHError : Bool
deriving DecidableEq

/-- A timing telemetry entry (`PerformanceEntry`).  JS double timestamps are
embedded as exact rationals. -/
structure TimingEntry where
  name : String
  startTime : ℚ
  duration : ℚ
  entryType : String
deriving DecidableEq

/-- The run-level `{code, message}` runtime error pair. -/
structure RuntimeError where
  code : String
  message : String
deriving DecidableEq

/-- A value stored under one key of the artifacts object.  The constructors
cover the shapes the runner itself inspects: the `URL` record, the `Timing`
entry list, the `LighthouseRunWarnings` list, the embedded gather-time
`settings`, the per-pass `traces` record (kept as the list of pass keys that
are present), plain string/number payloads for everything the runner treats as
opaque data, and `Error` instances. -/
inductive ArtifactValue where
  | url (requestedUrl finalUrl : String)
  | timing (entries : List TimingEntry)
  | warnings (ws : List String)
  | settingsVal (s : Settings)
  | traces (passKeys : List String)
  | str (s : String)
  | num (n : Int)
  | err (e : LHErrorData)
deriving DecidableEq

/-- `LH.Artifacts`: a JS object, embedded as an association list in property
insertion order (`Object.values` iterates it in this order). -/
abbrev ArtifactSet := List (String × ArtifactValue)

/-- Property read `artifacts[name]`; `none` is JS `undefined`. -/
def lookupArtifact (artifacts : ArtifactSet) (name : String) : Option ArtifactValue :=
  (artifacts.find? (fun p => decide (p.1 = name))).map Prod.snd

/-- JS `a || b` for an optional string `a`: the fallback is used when `a` is
`undefined` or the empty string (both falsy). -/
def jsStringOrElse (a : Option String) (b : String) : String :=
  match a with
  | some s => if s = "" then b else s
  | none => b

/-- A thrown JS `Error`: its `message`, the optional `friendlyMessage`
property, and the non-standard `expected` tag used for telemetry. -/
structure JsError where
  message : String
  friendlyMessage : Option String
  expected : Bool
deriving DecidableEq

/-- A plain `new Error(message)`. -/
def mkError (message : String) : JsError :=
  { message := message, friendlyMessage := none, expected := false }

/-- `err.friendlyMessage ? err.friendlyMessage : err.message` (runner.js:346),
with JS falsiness of the empty string. -/
def jsErrorDisplayMessage (e : JsError) : String :=
  jsStringOrElse e.friendlyMessage e.message

/-- `audit.meta`. -/
structure AuditMeta where
  id : String
  title : String
  requiredArtifacts : List String
deriving DecidableEq

/-- What an audit's `audit()` call returns on success. -/
structure AuditProduct where
  score : Option Int
  details : Option String
deriving DecidableEq

/-- `LH.Audit.Result`. -/
structure AuditResult where
  id : String
  score : Option Int
  details : Option String
  errorMessage : Option String
deriving DecidableEq

/-- The per-audit context: merged `options` plus the members of the shared
context.  The source shares `LighthouseRunWarnings` and `computedCache` by
reference across audits; audits are embedded as deterministic pure functions
(the spec's idempotence assumption), so the cache is not observable here and
the warnings list is read-only. -/
structure AuditContext where
  options : List (String × String)
  settings : Settings
  lighthouseRunWarnings : List String
deriving DecidableEq

/-- An audit implementation (`auditDefn.implementation`): metadata, default
options and the scoring logic, which may throw. -/
structure AuditImpl where
  meta : AuditMeta
  defaultOptions : List (String × String)
  auditFn : ArtifactSet → AuditContext → Except JsError AuditProduct

/-- `LH.Config.AuditDefn`: an implementation plus per-run option overrides. -/
structure AuditDefn where
  implementation : AuditImpl
  options : List (String × String)

/-- Modelled from the spec: `Audit.DEFAULT_PASS` (`audits/audit.js`, not in
this repository), the name of the default pass whose sub-entry the `traces`
artifact must contain. -/
def DEFAULT_PASS : String := "defaultPass"

/-- Modelled from the spec: `Audit.generateAuditResult` (`audits/audit.js`,
not in this repository) — the result-generation step that wraps a raw audit
product into a normalized `{id, score, details}` record for the audit. -/
def generateAuditResult (audit : AuditImpl) (product : AuditProduct) : AuditResult :=
  { id := audit.meta.id
    score := product.score
    details := product.details
    errorMessage := none }

/-- Modelled from the spec: `Audit.generateErrorAuditResult` (`audits/audit.js`,
not in this repository) — an error audit result for the audit carrying the
given message instead of a score. -/
def generateErrorAuditResult (audit : AuditImpl) (errorMessage : String) : AuditResult :=
  { id := audit.meta.id
    score := none
    details := none
    errorMessage := some errorMessage }

/-- Modelled from the spec: `URL.equalWithExcludedFragments` (`lib/url-shim.js`,
not in this repository) — two URLs denote the same resource ignoring fragment
identifiers, i.e. they are equal after stripping everything from `#` on. -/
def stripFragment (u : String) : String :=
  ((u.toList).takeWhile (fun c => c != '#')).asString

/-- Modelled from the spec: fragment-insensitive URL equality. -/
def equalWithExcludedFragments (a b : String) : Bool :=
  decide (stripFragment a = stripFragment b)

/-- Split a character list at the first `://` separator. -/
def splitOnSchemeSep : List Char → Option (List Char × List Char)
  | [] => none
  | ':' :: '/' :: '/' :: rest => some ([], rest)
  | c :: rest => (splitOnSchemeSep rest).map (fun p => (c :: p.1, p.2))

/-- Modelled from the spec: `new URL(url).href` — resolve the input to a
canonical absolute form ("with trailing slashes and such") or fail when the
url lacks a proper protocol and hostname: there must be a `://` separator
with a non-empty scheme before it and a non-empty host after it, and a host
without a path gets the canonical trailing slash. -/
def canonicalizeUrl (url : String) : Option String :=
  match splitOnSchemeSep url.toList with
  | some (scheme, rest) =>
      if scheme = [] ∨ rest = [] then none
      else if rest.contains '/' then some url
      else some (url ++ "/")
  | none => none

/-- One assignment `map.set(kv.1, kv.2)` on a JS `Map` kept as an association
list: replacing an existing key keeps its position, a new key is appended. -/
def jsMapInsert {κ α : Type} [DecidableEq κ] (acc : List (κ × α)) (kv : κ × α) :
    List (κ × α) :=
  if acc.any (fun p => decide (p.1 = kv.1)) then
    acc.map (fun p => if p.1 = kv.1 then kv else p)
  else
    acc ++ [kv]

/-- `new Map(keyValues)` / building a JS object key by key: iteration order is
first insertion of each key, the last value set for a key wins. -/
def jsMapFromList {κ α : Type} [DecidableEq κ] (l : List (κ × α)) : List (κ × α) :=
  l.foldl jsMapInsert []

namespace Runner

/-- Truthiness of `artifacts.traces[Audit.DEFAULT_PASS]`: only a traces
record with the default-pass key has the sub-entry; a property read on any
other value yields `undefined`. -/
def hasDefaultPassTrace : ArtifactValue → Bool
  | .traces passKeys => decide (DEFAULT_PASS ∈ passKeys)
  | _ => false

/-- The artifact-validation steps of the loop body in `Runner._runAudit`
(runner.js:288-321) for one required artifact name.  `noArtifact` is the
`undefined` check; for the name `traces` the sub-entry read
`artifacts.traces[Audit.DEFAULT_PASS]` itself throws a `TypeError` when the
traces artifact is `undefined`; `noArtifact || noTrace` throws the
"did not run" error; an artifact that is an `Error` instance throws the
"encountered an error" error tagged `expected`. -/
def checkArtifactOk (artifacts : ArtifactSet) (artifactName : String) :
    Except JsError Unit :=
  match lookupArtifact artifacts artifactName with
  | none =>
      if artifactName = "traces" then
        .error (mkError "Cannot read property defaultPass of undefined")
      else
        .error (mkError ("Required " ++ artifactName ++ " gatherer did not run."))
  | some art =>
      if artifactName = "traces" ∧ hasDefaultPassTrace art = false then
        .error (mkError ("Required " ++ artifactName ++ " gatherer did not run."))
      else
        match art with
        | .err e =>
            .error
              { message := "Required " ++ artifactName ++
                  " gatherer encountered an error: " ++ e.message
                friendlyMessage := none
                expected := true }
        | _ => .ok ()

/-- The `for (const artifactName of audit.meta.requiredArtifacts)` loop of
`Runner._runAudit`: the first failing artifact throws out of the loop. -/
def checkRequiredArtifacts (artifacts : ArtifactSet) :
    List String → Except JsError Unit
  | [] => .ok ()
  | n :: rest =>
      match checkArtifactOk artifacts n with
      | .error e => .error e
      | .ok _ => checkRequiredArtifacts artifacts rest

/-- `Object.assign({}, base, over)` on option bags: keys of `base` keep their
position (overridden values win), new keys of `over` are appended. -/
def jsObjectAssign (base over : List (String × String)) : List (String × String) :=
  base.map (fun p =>
    match (over.find? (fun q => decide (q.1 = p.1))).map Prod.snd with
    | some v => (p.1, v)
    | none => p) ++
  over.filter (fun q => (base.find? (fun p => decide (p.1 = q.1))).isNone)

/-- The per-audit restricted view (runner.js:334-338): the reduce that copies
exactly the declared `requiredArtifacts` keys out of the full artifact set.
(The JS reduce assigns `artifacts[artifactName]` unconditionally; by the time
it runs every required artifact is present, so dropping `undefined` values is
equivalent.) -/
def restrictArtifacts (artifacts : ArtifactSet) (names : List String) : ArtifactSet :=
  names.filterMap (fun n => (lookupArtifact artifacts n).map (fun v => (n, v)))

/-- The members of `LH.Audit.Context` shared across all audits of one run
(runner.js:251-255). -/
structure SharedContext where
  settings : Settings
  lighthouseRunWarnings : List String
deriving DecidableEq

/-- `Runner._runAudit` (runner.js:277-352): validate the required artifacts,
merge the options, restrict the artifact view, and invoke the audit; the
surrounding `try`/`catch` turns any thrown error into an error audit result,
so one audit's failure never escapes as a run failure. -/
def _runAudit (auditDefn : AuditDefn) (artifacts : ArtifactSet)
    (shared : SharedContext) : AuditResult :=
  let audit := auditDefn.implementation
  match checkRequiredArtifacts artifacts audit.meta.requiredArtifacts with
  | .error err => generateErrorAuditResult audit (jsErrorDisplayMessage err)
  | .ok _ =>
      let auditOptions := jsObjectAssign audit.defaultOptions auditDefn.options
      let auditContext : AuditContext :=
        { options := auditOptions
          settings := shared.settings
          lighthouseRunWarnings := shared.lighthouseRunWarnings }
      let requiredArtifacts := restrictArtifacts artifacts audit.meta.requiredArtifacts
      match audit.auditFn requiredArtifacts auditContext with
      | .ok product => generateAuditResult audit product
      | .error err => generateErrorAuditResult audit (jsErrorDisplayMessage err)

/-- `Object.assign({}, s, overrides)` with the overrides of runner.js:235-241:
the fields `locale`, `gatherMode`, `auditMode`, `output` and `budgets` are
forced to `undefined`, every other field is kept. -/
def normalizeSettings (s : Settings) : Settings :=
  { locale := none
    gatherMode := .off
    auditMode := .off
    output := []
    budgets := none
    rest := s.rest }

/-- The error thrown when gather-time and audit-time settings disagree. -/
def settingsMismatchError : JsError :=
  mkError "Cannot change settings between gathering and auditing"

/-- The `if (artifacts.settings)` gate of `Runner._runAudits`
(runner.js:234-248): no embedded settings means no check; embedded settings
must be deep-equal to the current settings after the overrides.  (A value of
some other shape under the `settings` key never deep-equals a normalized
settings record, so it is modelled as failing the comparison.) -/
def settingsGateOk (artifacts : ArtifactSet) (settings : Settings) : Bool :=
  match lookupArtifact artifacts "settings" with
  | none => true
  | some (.settingsVal gs) => decide (normalizeSettings gs = normalizeSettings settings)
  | some _ => false

/-- `Runner._runAudits` (runner.js:230-266): the settings-compatibility gate,
then the sequential `for` loop over the audit definitions.  Each loop
iteration is total (`_runAudit` catches everything), so the loop is a map. -/
def _runAudits (settings : Settings) (audits : List AuditDefn)
    (artifacts : ArtifactSet) (runWarnings : List String) :
    Except JsError (List AuditResult) :=
  if settingsGateOk artifacts settings then
    .ok (audits.map (fun auditDefn =>
      _runAudit auditDefn artifacts
        { settings := settings, lighthouseRunWarnings := runWarnings }))
  else
    .error settingsMismatchError

/-- `artifacts.Timing || []` (runner.js:177). -/
def timingFromArtifacts (artifacts : ArtifactSet) : List TimingEntry :=
  match lookupArtifact artifacts "Timing" with
  | some (.timing entries) => entries
  | _ => []

/-- `parseFloat(x.toFixed(2))` on an exact rational: round to the nearest
hundredth. -/
def roundHundredths (q : ℚ) : ℚ :=
  (round (q * 100) : ℤ) / 100

/-- The truncation map of runner.js:187-196: rebuild the entry with its
timestamps rounded to hundredths. -/
def roundEntry (entry : TimingEntry) : TimingEntry :=
  { startTime := roundHundredths entry.startTime
    name := entry.name
    duration := roundHundredths entry.duration
    entryType := entry.entryType }

/-- The aggregated timing payload (`LH.Result.Timing`). -/
structure TimingResult where
  entries : List TimingEntry
  total : ℚ
deriving DecidableEq

/-- `Runner._getTiming` (runner.js:176-199): concatenate the collection-phase
entries with the runner's own entries, dedupe via a `Map` keyed on
`startTime`, round the survivors, and read the total off the
`lh:runner:run` entry.  `log.takeTimeEntries()` is an external logging store;
its contents are the `timingEntriesFromRunner` argument. -/
def _getTiming (artifacts : ArtifactSet) (timingEntriesFromRunner : List TimingEntry) :
    TimingResult :=
  let timingEntriesFromArtifacts := timingFromArtifacts artifacts
  let timingEntriesKeyValues :=
    (timingEntriesFromArtifacts ++ timingEntriesFromRunner).map
      (fun entry => (entry.startTime, entry))
  let timingEntries :=
    (jsMapFromList timingEntriesKeyValues).map (fun p => roundEntry p.2)
  let runnerEntry := timingEntries.find? (fun e => decide (e.name = "lh:runner:run"))
  { entries := timingEntries
    total :=
      match runnerEntry with
      | some e => e.duration
      | none => 0 }

/-- Whether a value is an `LHError` instance with the `lhrRuntimeError`
promote-to-run-level flag (runner.js:367). -/
def isRuntimeErrorMarker : ArtifactValue → Bool
  | .err e => e.isLHError && e.lhrRuntimeError
  | _ => false

/-- The `{code, message}` pair built from a matched marker (runner.js:368-373):
the friendly message when a truthy one is present, the raw message otherwise. -/
def runtimeErrorOf (e : LHErrorData) : RuntimeError :=
  { code := e.code, message := jsStringOrElse e.friendlyMessage e.message }

/-- The `for (const possibleErrorArtifact of possibleErrorArtifacts)` loop of
`Runner.getArtifactRuntimeError`: first promotable marker wins. -/
def scanRuntimeError : List ArtifactValue → Option RuntimeError
  | [] => none
  | v :: rest =>
      match v with
      | .err e =>
          if e.isLHError && e.lhrRuntimeError then some (runtimeErrorOf e)
          else scanRuntimeError rest
      | _ => scanRuntimeError rest

/-- `Runner.getArtifactRuntimeError` (runner.js:360-378): scan
`[artifacts.PageLoadError, ...Object.values(artifacts)]` (an absent
`PageLoadError` contributes JS `undefined`, which never matches) for the first
promotable error marker. -/
def getArtifactRuntimeError (artifacts : ArtifactSet) : Option RuntimeError :=
  scanRuntimeError
    ((lookupArtifact artifacts "PageLoadError").toList ++ artifacts.map Prod.snd)

/-- `Runner._getArtifactsPath` (runner.js:432-440): a string-valued
`auditMode` wins, then a string-valued `gatherMode`, else the default
`latest-run` working directory.  (`path.resolve` against the process working
directory is modelled as the path string itself.) -/
def _getArtifactsPath (settings : Settings) : String :=
  match settings.auditMode.pathValue with
  | some p => p
  | none =>
      match settings.gatherMode.pathValue with
      | some p => p
      | none => "latest-run"

end Runner

namespace Runner

/-- Modelled from the spec: the external collaborators `Runner.run` consumes.
`loadArtifacts` is `assetSaver.loadArtifacts` (persistence, `lib/asset-saver.js`,
not in this repository), `gather` is the collection pipeline
`Runner._gatherArtifactsFromBrowser` body (`GatherRunner.run` plus the driver,
`gather/gather-runner.js`, not in this repository), and
`timingEntriesFromRunner` is the logger's `log.takeTimeEntries()` store. -/
structure RunEnv where
  loadArtifacts : String → Except JsError ArtifactSet
  gather : String → Except JsError ArtifactSet
  timingEntriesFromRunner : List TimingEntry

/-- The slice of `Config` the runner reads: the settings, the configured audit
list (`undefined` when absent) and whether `config.passes` is truthy.
Categories, groups and pass contents are consumed only by external
collaborators (scoring, gathering) and are not modelled. -/
structure Config where
  settings : Settings
  audits : Option (List AuditDefn)
  passes : Bool

/-- `runOpts`: the config and the optional input URL. -/
structure RunOpts where
  config : Config
  url : Option String

/-- `artifacts.URL.requestedUrl` (runner.js:64): a missing `URL` artifact makes
the property read throw a `TypeError`; a non-record value or an empty string
yields a falsy `requestedUrl`, reported as `none`. -/
def readUrlRequestedUrl (artifacts : ArtifactSet) : Except JsError (Option String) :=
  match lookupArtifact artifacts "URL" with
  | none => .error (mkError "Cannot read property requestedUrl of undefined")
  | some (.url requestedUrl _) =>
      .ok (if requestedUrl = "" then none else some requestedUrl)
  | some _ => .ok none

/-- `artifacts.URL.finalUrl` (runner.js:139), with the same `TypeError`
behavior for a missing `URL` artifact. -/
def readUrlFinalUrl (artifacts : ArtifactSet) : Except JsError (Option String) :=
  match lookupArtifact artifacts "URL" with
  | none => .error (mkError "Cannot read property finalUrl of undefined")
  | some (.url _ finalUrl) => .ok (some finalUrl)
  | some _ => .ok none

/-- What the gather phase of `Runner.run` (runner.js:58-90) establishes: the
artifact set, the resolved `requestedUrl`, and the artifact set persisted by
`assetSaver.saveArtifacts` together with its path, when gather mode asked for
it. -/
structure GatherPhaseResult where
  artifacts : ArtifactSet
  requestedUrl : String
  saved : Option (String × ArtifactSet)

/-- The gather phase of `Runner.run` (runner.js:58-90).  Audit-only mode loads
the artifacts from disk and validates the persisted `requestedUrl` against the
optionally supplied one (fragment-insensitively); every other mode requires a
valid input URL, canonicalizes it, gathers fresh artifacts (failing when the
config has no passes), and persists them when gather mode is on. -/
def gatherPhase (runOpts : RunOpts) (env : RunEnv) : Except JsError GatherPhaseResult := do
  let settings := runOpts.config.settings
  if settings.auditMode.isTruthy && !settings.gatherMode.isTruthy then
    let p := _getArtifactsPath settings
    let artifacts ← env.loadArtifacts p
    match ← readUrlRequestedUrl artifacts with
    | none => throw (mkError "Cannot run audit mode on empty URL")
    | some requestedUrl =>
        match runOpts.url with
        | some u =>
            if u != "" && !equalWithExcludedFragments u requestedUrl then
              throw (mkError "Cannot run audit mode on different URL")
            else
              pure { artifacts := artifacts, requestedUrl := requestedUrl, saved := none }
        | none =>
            pure { artifacts := artifacts, requestedUrl := requestedUrl, saved := none }
  else
    match runOpts.url with
    | none => throw (mkError "You must provide a url to the runner.")
    | some u => do
        if u = "" then
          throw (mkError "You must provide a url to the runner.")
        match canonicalizeUrl u with
        | none => throw (mkError "The url provided should have a proper protocol and hostname.")
        | some requestedUrl => do
            if !runOpts.config.passes then
              throw (mkError "No browser artifacts are either provided or requested.")
            let artifacts ← env.gather requestedUrl
            let saved :=
              if settings.gatherMode.isTruthy then
                some (_getArtifactsPath settings, artifacts)
              else none
            pure { artifacts := artifacts, requestedUrl := requestedUrl, saved := saved }

/-- The orchestration-relevant fields of `LH.Result` (runner.js:129-152).
Fields filled in by external collaborators — scored categories, localization
metadata, stack packs, environment strings — are outside this embedding. -/
structure LHR where
  requestedUrl : String
  finalUrl : Option String
  runWarnings : List String
  runtimeError : Option RuntimeError
  audits : List (String × AuditResult)
  timing : TimingResult
deriving DecidableEq

/-- The LHR construction phase of `Runner.run` (runner.js:102-155): merge the
artifact-embedded run warnings, key the audit results by id, and assemble the
record.  (The in-run warnings list stays empty because audits are embedded as
pure functions.) -/
def buildLHR (artifacts : ArtifactSet) (requestedUrl : String)
    (auditResults : List AuditResult) (env : RunEnv) : Except JsError LHR := do
  let lighthouseRunWarnings :=
    match lookupArtifact artifacts "LighthouseRunWarnings" with
    | some (.warnings ws) => ws
    | _ => []
  let resultsById := jsMapFromList (auditResults.map (fun audit => (audit.id, audit)))
  let finalUrl ← readUrlFinalUrl artifacts
  pure
    { requestedUrl := requestedUrl
      finalUrl := finalUrl
      runWarnings := lighthouseRunWarnings
      runtimeError := getArtifactRuntimeError artifacts
      audits := resultsById
      timing := _getTiming artifacts env.timingEntriesFromRunner }

/-- `{lhr, artifacts, report}` (runner.js:160); the rendered report is produced
by the external report generator and not modelled. -/
structure RunnerResultRecord where
  lhr : LHR
  artifacts : ArtifactSet
deriving DecidableEq

/-- The observable outcome of `Runner.run`: the returned value (`none` is the
collect-only `undefined`) and what was persisted to disk on the way. -/
structure RunOutcome where
  result : Option RunnerResultRecord
  saved : Option (String × ArtifactSet)
deriving DecidableEq

/-- `Runner.run` (runner.js:33-167): gather phase, the collect-only early
return, the audit phase, and LHR construction.  The top-level `catch` localizes
the error's friendly message (external) and re-raises it, so errors propagate
unchanged here. -/
def run (runOpts : RunOpts) (env : RunEnv) : Except JsError RunOutcome := do
  let settings := runOpts.config.settings
  let phase ← gatherPhase runOpts env
  -- Potentially quit early
  if settings.gatherMode.isTruthy && !settings.auditMode.isTruthy then
    return { result := none, saved := phase.saved }
  -- Audit phase
  match runOpts.config.audits with
  | none => throw (mkError "No audits to evaluate.")
  | some audits => do
      let auditResults ← _runAudits settings audits phase.artifacts []
      let lhr ← buildLHR phase.artifacts phase.requestedUrl auditResults env
      pure { result := some { lhr := lhr, artifacts := phase.artifacts }
             saved := phase.saved }

end Runner

namespace Runner

lemma lookupArtifact_cons (p : String × ArtifactValue) (l : ArtifactSet) (n : String) :
    lookupArtifact (p :: l) n = if p.1 = n then some p.2 else lookupArtifact l n := by
  by_cases h : p.1 = n <;> simp [lookupArtifact, List.find?_cons, h]

/-- A successful artifact check implies the artifact is present. -/
lemma checkArtifactOk_isSome {artifacts : ArtifactSet} {n : String}
    (h : checkArtifactOk artifacts n = .ok ()) :
    (lookupArtifact artifacts n).isSome = true := by
  cases hl : lookupArtifact artifacts n with
  | none =>
      exfalso
      simp only [checkArtifactOk, hl] at h
      split at h <;> exact Except.noConfusion h
  | some v => rfl

/-- The required-artifacts loop succeeds only if every single check does. -/
lemma checkRequiredArtifacts_ok {artifacts : ArtifactSet} {names : List String}
    (h : checkRequiredArtifacts artifacts names = .ok ()) :
    ∀ n ∈ names, checkArtifactOk artifacts n = .ok () := by
  induction names with
  | nil => simp
  | cons m rest ih =>
      intro n hn
      simp only [checkRequiredArtifacts] at h
      cases hc : checkArtifactOk artifacts m with
      | error e => rw [hc] at h; exact Except.noConfusion h
      | ok u =>
          cases u
          rw [hc] at h
          have hrest : checkRequiredArtifacts artifacts rest = .ok () := h
          rcases List.mem_cons.mp hn with rfl | hmem
          · exact hc
          · exact ih hrest n hmem

/-- A missing required artifact — or a traces artifact without the
default-pass sub-entry — fails its check. -/
lemma checkArtifactOk_fails {artifacts : ArtifactSet} {n : String}
    (h : lookupArtifact artifacts n = none ∨
      (n = "traces" ∧ ∀ v, lookupArtifact artifacts n = some v → hasDefaultPassTrace v = false)) :
    ∃ e, checkArtifactOk artifacts n = .error e := by
  rcases h with hnone | ⟨htr, hdp⟩
  · by_cases ht : n = "traces"
    · simp only [checkArtifactOk, hnone, if_pos ht]
      exact ⟨_, rfl⟩
    · simp only [checkArtifactOk, hnone, if_neg ht]
      exact ⟨_, rfl⟩
  · cases hl : lookupArtifact artifacts n with
    | none =>
        simp only [checkArtifactOk, hl, if_pos htr]
        exact ⟨_, rfl⟩
    | some v =>
        have hv := hdp v hl
        simp only [checkArtifactOk, hl]
        rw [if_pos ⟨htr, hv⟩]
        exact ⟨_, rfl⟩

/-- The restricted per-audit view answers exactly the declared names, with the
full set's values, and `undefined` outside them. -/
lemma restrictArtifacts_lookup (artifacts : ArtifactSet) (names : List String)
    (n : String) :
    lookupArtifact (restrictArtifacts artifacts names) n =
      if n ∈ names then lookupArtifact artifacts n else none := by
  induction names with
  | nil => simp [restrictArtifacts, lookupArtifact]
  | cons m rest ih =>
      cases hm : lookupArtifact artifacts m with
      | none =>
          have hrec : restrictArtifacts artifacts (m :: rest) =
              restrictArtifacts artifacts rest := by
            simp [restrictArtifacts, List.filterMap_cons, hm]
          rw [hrec, ih]
          by_cases hn : n = m
          · subst hn
            by_cases hmem : n ∈ rest <;> simp [hmem, hm]
          · simp [List.mem_cons, hn]
      | some v =>
          have hrec : restrictArtifacts artifacts (m :: rest) =
              (m, v) :: restrictArtifacts artifacts rest := by
            simp [restrictArtifacts, List.filterMap_cons, hm]
          rw [hrec, lookupArtifact_cons, ih]
          by_cases hn : m = n
          · subst hn
            simp [hm]
          · have hn' : ¬ n = m := fun hx => hn hx.symm
            simp [if_neg hn, List.mem_cons, hn']

/-- When every declared artifact is present, the restricted view's keys are
exactly the declared names, in order. -/
lemma restrictArtifacts_keys (artifacts : ArtifactSet) (names : List String)
    (h : ∀ n ∈ names, (lookupArtifact artifacts n).isSome = true) :
    (restrictArtifacts artifacts names).map Prod.fst = names := by
  induction names with
  | nil => rfl
  | cons m rest ih =>
      have hm := h m (List.mem_cons_self m rest)
      cases hl : lookupArtifact artifacts m with
      | none => rw [hl] at hm; exact Bool.noConfusion hm
      | some v =>
          have hrec : restrictArtifacts artifacts (m :: rest) =
              (m, v) :: restrictArtifacts artifacts rest := by
            simp [restrictArtifacts, List.filterMap_cons, hl]
          rw [hrec, List.map_cons, ih (fun n hn => h n (List.mem_cons_of_mem m hn))]

end Runner

namespace Runner

/-- One artifact check only reads the artifact it names. -/
lemma checkArtifactOk_congr {a1 a2 : ArtifactSet} {n : String}
    (h : lookupArtifact a1 n = lookupArtifact a2 n) :
    checkArtifactOk a1 n = checkArtifactOk a2 n := by
  simp only [checkArtifactOk, h]

/-- The required-artifacts loop only reads the artifacts it names. -/
lemma checkRequiredArtifacts_congr {a1 a2 : ArtifactSet} {names : List String}
    (h : ∀ n ∈ names, lookupArtifact a1 n = lookupArtifact a2 n) :
    checkRequiredArtifacts a1 names = checkRequiredArtifacts a2 names := by
  induction names with
  | nil => rfl
  | cons m rest ih =>
      simp only [checkRequiredArtifacts,
        checkArtifactOk_congr (h m (List.mem_cons_self m rest))]
      cases checkArtifactOk a2 m with
      | error e => rfl
      | ok u => exact ih (fun n hn => h n (List.mem_cons_of_mem m hn))

/-- The restricted view only reads the artifacts it names. -/
lemma restrictArtifacts_congr {a1 a2 : ArtifactSet} {names : List String}
    (h : ∀ n ∈ names, lookupArtifact a1 n = lookupArtifact a2 n) :
    restrictArtifacts a1 names = restrictArtifacts a2 names := by
  induction names with
  | nil => rfl
  | cons m rest ih =>
      simp only [restrictArtifacts, List.filterMap_cons] at ih ⊢
      rw [h m (List.mem_cons_self m rest),
        ih (fun n hn => h n (List.mem_cons_of_mem m hn))]

/-- Running one audit only reads the artifacts declared in its
`requiredArtifacts`: two artifact sets that agree on those names give the
same result. -/
lemma _runAudit_congr {a1 a2 : ArtifactSet} {auditDefn : AuditDefn}
    {shared : SharedContext}
    (h : ∀ n ∈ auditDefn.implementation.meta.requiredArtifacts,
      lookupArtifact a1 n = lookupArtifact a2 n) :
    _runAudit auditDefn a1 shared = _runAudit auditDefn a2 shared := by
  simp only [_runAudit, checkRequiredArtifacts_congr h, restrictArtifacts_congr h]

/-- Replacing the pair stored at `kv.1` lets a search for `kv.1` find `kv`. -/
lemma find?_map_replace_eq {κ α : Type} [DecidableEq κ] (acc : List (κ × α))
    (kv : κ × α) (hmem : acc.any (fun p => decide (p.1 = kv.1)) = true) :
    (acc.map (fun p => if p.1 = kv.1 then kv else p)).find?
      (fun p => decide (p.1 = kv.1)) = some kv := by
  induction acc with
  | nil => exact Bool.noConfusion hmem
  | cons p rest ih =>
      rw [List.map_cons, List.find?_cons]
      by_cases hp : p.1 = kv.1
      · simp [hp]
      · rw [if_neg hp]
        have hfalse : (decide (p.1 = kv.1)) = false := decide_eq_false hp
        simp only [hfalse]
        rw [List.any_cons] at hmem
        rcases Bool.or_eq_true_iff.mp hmem with hbad | htail
        · exact absurd (of_decide_eq_true hbad) hp
        · exact ih htail

/-- Replacing the pair stored at `kv.1` does not affect a search for any
other key. -/
lemma find?_map_replace_ne {κ α : Type} [DecidableEq κ] (acc : List (κ × α))
    (kv : κ × α) (k : κ) (hk : k ≠ kv.1) :
    (acc.map (fun p => if p.1 = kv.1 then kv else p)).find?
      (fun p => decide (p.1 = k)) = acc.find? (fun p => decide (p.1 = k)) := by
  induction acc with
  | nil => rfl
  | cons p rest ih =>
      rw [List.map_cons, List.find?_cons, List.find?_cons]
      by_cases hp : p.1 = kv.1
      · have h1 : (decide ((if p.1 = kv.1 then kv else p).1 = k)) = false := by
          rw [if_pos hp]
          exact decide_eq_false (fun hx => hk hx.symm)
        have h2 : (decide (p.1 = k)) = false := by
          refine decide_eq_false (fun hx => hk ?_)
          rw [← hx, hp]
        rw [h1, h2]
        exact ih
      · rw [if_neg hp]
        cases hd : (decide (p.1 = k)) with
        | true => rfl
        | false => exact ih

/-- `find?` over an appended list searches the first list first. -/
lemma find?_append_or {β : Type} (l1 l2 : List β) (p : β → Bool) :
    (l1 ++ l2).find? p =
      match l1.find? p with
      | some x => some x
      | none => l2.find? p := by
  induction l1 with
  | nil => rfl
  | cons a rest ih =>
      rw [List.cons_append, List.find?_cons, List.find?_cons]
      cases p a with
      | true => rfl
      | false => exact ih

/-- One `Map.set` step: for an existing key the stored pair is replaced in
place, for a new key the pair is appended; searching afterwards finds `kv`
exactly at key `kv.1`. -/
lemma jsMapInsert_find? {κ α : Type} [DecidableEq κ] (acc : List (κ × α))
    (kv : κ × α) (k : κ) :
    (jsMapInsert acc kv).find? (fun p => decide (p.1 = k)) =
      if k = kv.1 then some kv else acc.find? (fun p => decide (p.1 = k)) := by
  unfold jsMapInsert
  by_cases hmem : acc.any (fun p => decide (p.1 = kv.1)) = true
  · rw [if_pos hmem]
    by_cases hk : k = kv.1
    · rw [if_pos hk, hk]
      exact find?_map_replace_eq acc kv hmem
    · rw [if_neg hk]
      exact find?_map_replace_ne acc kv k hk
  · rw [if_neg hmem]
    rw [find?_append_or]
    by_cases hk : k = kv.1
    · have hnone : acc.find? (fun p => decide (p.1 = k)) = none := by
        rw [List.find?_eq_none]
        intro x hx hpx
        have := of_decide_eq_true hpx
        rw [hk] at this
        exact hmem (List.any_eq_true.mpr ⟨x, hx, decide_eq_true this⟩)
      rw [hnone, if_pos hk]
      have : (decide (kv.1 = k)) = true := decide_eq_true hk.symm
      simp [List.find?_cons, this]
    · rw [if_neg hk]
      have hkv : (decide (kv.1 = k)) = false := decide_eq_false (fun hx => hk hx.symm)
      cases hf : acc.find? (fun p => decide (p.1 = k)) with
      | some x => rfl
      | none => simp [List.find?_cons, hkv]

/-- Folding `Map.set` over a pair list: a search afterwards finds the last
pair written for the key (or falls back to the initial map). -/
lemma foldl_jsMapInsert_find? {κ α : Type} [DecidableEq κ] (l acc : List (κ × α))
    (k : κ) :
    (List.foldl jsMapInsert acc l).find? (fun p => decide (p.1 = k)) =
      match l.reverse.find? (fun p => decide (p.1 = k)) with
      | some x => some x
      | none => acc.find? (fun p => decide (p.1 = k)) := by
  induction l generalizing acc with
  | nil => rfl
  | cons kv rest ih =>
      rw [List.foldl_cons, ih (jsMapInsert acc kv)]
      rw [List.reverse_cons, find?_append_or]
      cases hrev : rest.reverse.find? (fun p => decide (p.1 = k)) with
      | some x => rfl
      | none =>
          rw [jsMapInsert_find?]
          by_cases hk : k = kv.1
          · have : (decide (kv.1 = k)) = true := decide_eq_true hk.symm
            simp [List.find?_cons, this, hk]
          · have hkv : (decide (kv.1 = k)) = false := decide_eq_false (fun hx => hk hx.symm)
            simp [List.find?_cons, hkv, hk]

/-- `new Map(keyValues)`: looking a key up in the resulting map yields the
last pair of the input carrying that key — the last occurrence wins. -/
lemma jsMapFromList_find? {κ α : Type} [DecidableEq κ] (l : List (κ × α)) (k : κ) :
    (jsMapFromList l).find? (fun p => decide (p.1 = k)) =
      l.reverse.find? (fun p => decide (p.1 = k)) := by
  unfold jsMapFromList
  rw [foldl_jsMapInsert_find?]
  cases l.reverse.find? (fun p => decide (p.1 = k)) with
  | some x => rfl
  | none => rfl

/-- Replacing the pair stored at a key leaves the key list unchanged. -/
lemma map_fst_replace {κ α : Type} [DecidableEq κ] (acc : List (κ × α))
    (kv : κ × α) :
    (acc.map (fun p => if p.1 = kv.1 then kv else p)).map Prod.fst =
      acc.map Prod.fst := by
  induction acc with
  | nil => rfl
  | cons p rest ih =>
      rw [List.map_cons, List.map_cons, List.map_cons, ih]
      by_cases hp : p.1 = kv.1
      · rw [if_pos hp, hp]
      · rw [if_neg hp]

/-- `Map.set` never duplicates a key. -/
lemma jsMapInsert_keys {κ α : Type} [DecidableEq κ] (acc : List (κ × α))
    (kv : κ × α) :
    (jsMapInsert acc kv).map Prod.fst =
      if acc.any (fun p => decide (p.1 = kv.1)) = true then acc.map Prod.fst
      else acc.map Prod.fst ++ [kv.1] := by
  unfold jsMapInsert
  by_cases hmem : acc.any (fun p => decide (p.1 = kv.1)) = true
  · rw [if_pos hmem, if_pos hmem]
    exact map_fst_replace acc kv
  · rw [if_neg hmem, if_neg hmem, List.map_append]
    rfl

/-- The keys of a JS `Map` are pairwise distinct. -/
lemma jsMapFromList_keys_nodup {κ α : Type} [DecidableEq κ] (l : List (κ × α)) :
    ((jsMapFromList l).map Prod.fst).Nodup := by
  have general : ∀ (l acc : List (κ × α)), (acc.map Prod.fst).Nodup →
      ((List.foldl jsMapInsert acc l).map Prod.fst).Nodup := by
    intro l
    induction l with
    | nil => intro acc h; exact h
    | cons kv rest ih =>
        intro acc h
        rw [List.foldl_cons]
        refine ih (jsMapInsert acc kv) ?_
        rw [jsMapInsert_keys]
        by_cases hmem : acc.any (fun p => decide (p.1 = kv.1)) = true
        · rw [if_pos hmem]; exact h
        · rw [if_neg hmem]
          rw [List.nodup_append]
          refine ⟨h, List.nodup_singleton kv.1, ?_⟩
          intro x hx hx1
          rcases List.mem_map.mp hx with ⟨p, hp, rfl⟩
          have : p.1 = kv.1 := by simpa using hx1
          exact hmem (List.any_eq_true.mpr ⟨p, hp, decide_eq_true this⟩)
  exact general l [] List.nodup_nil

/-- A successful scan of the possible-error list returns the `{code, message}`
pair of some promotable `LHError` marker occurring in the list. -/
lemma scanRuntimeError_some {l : List ArtifactValue} {r : RuntimeError}
    (h : scanRuntimeError l = some r) :
    ∃ e, ArtifactValue.err e ∈ l ∧ e.isLHError = true ∧ e.lhrRuntimeError = true ∧
      r = runtimeErrorOf e := by
  induction l with
  | nil => exact Option.noConfusion h
  | cons v rest ih =>
      cases v
      case err e =>
        simp only [scanRuntimeError] at h
        by_cases hflag : (e.isLHError && e.lhrRuntimeError) = true
        · rw [if_pos hflag] at h
          obtain ⟨h1, h2⟩ := Bool.and_eq_true_iff.mp hflag
          exact ⟨e, List.mem_cons_self _ _, h1, h2, (Option.some.inj h).symm⟩
        · rw [if_neg hflag] at h
          obtain ⟨e', hmem, h1, h2, hr⟩ := ih h
          exact ⟨e', List.mem_cons_of_mem _ hmem, h1, h2, hr⟩
      all_goals
        simp only [scanRuntimeError] at h
        obtain ⟨e', hmem, h1, h2, hr⟩ := ih h
        exact ⟨e', List.mem_cons_of_mem _ hmem, h1, h2, hr⟩

end Runner

namespace Runner

/-- Both result-generation paths stamp the audit's own id on the result. -/
lemma _runAudit_id (auditDefn : AuditDefn) (artifacts : ArtifactSet)
    (shared : SharedContext) :
    (_runAudit auditDefn artifacts shared).id = auditDefn.implementation.meta.id := by
  simp only [_runAudit]
  split
  · rfl
  · split <;> rfl

end Runner

/-- C1: when the audit phase runs to completion, `_runAudits` produces exactly
one `AuditResult` per configured `AuditDefinition`, in configured order, and
the result at every position carries the id of the definition at that
position. -/
theorem c1_one_result_per_audit_in_order (settings : Settings)
    (audits : List AuditDefn) (artifacts : ArtifactSet) (w : List String)
    (hgate : Runner.settingsGateOk artifacts settings = true) :
    ∃ results, Runner._runAudits settings audits artifacts w = .ok results ∧
      results.length = audits.length ∧
      ∀ (i : Nat) (h1 : i < results.length) (h2 : i < audits.length),
        (results.get ⟨i, h1⟩).id = (audits.get ⟨i, h2⟩).implementation.meta.id := by
  refine ⟨audits.map (fun d => Runner._runAudit d artifacts
    { settings := settings, lighthouseRunWarnings := w }), ?_, ?_, ?_⟩
  · simp only [Runner._runAudits, if_pos hgate]
  · exact List.length_map audits _
  · intro i h1 h2
    rw [List.get_map]
    exact Runner._runAudit_id _ _ _

/-- A minimal settings value for concrete instantiations. -/
def exampleSettings : Settings :=
  { locale := none, gatherMode := .off, auditMode := .off, output := [],
    budgets := none, rest := [] }

def exampleAudit : AuditImpl :=
  { meta := { id := "example-audit", title := "Example", requiredArtifacts := ["URL"] }
    defaultOptions := []
    auditFn := fun _ _ => .ok { score := some 1, details := none } }

def exampleAuditDefn : AuditDefn := { implementation := exampleAudit, options := [] }

def exampleArtifacts : ArtifactSet :=
  [("URL", .url "https://example.com/" "https://example.com/")]

/-- C1 witness: the theorem applied to one concrete audit list. -/
theorem c1_witness :
    ∃ results, Runner._runAudits exampleSettings [exampleAuditDefn]
        exampleArtifacts [] = .ok results ∧
      results.length = [exampleAuditDefn].length ∧
      ∀ (i : Nat) (h1 : i < results.length) (h2 : i < [exampleAuditDefn].length),
        (results.get ⟨i, h1⟩).id =
          ([exampleAuditDefn].get ⟨i, h2⟩).implementation.meta.id :=
  c1_one_result_per_audit_in_order exampleSettings [exampleAuditDefn]
    exampleArtifacts [] rfl

/-- C2: an audit whose `requiredArtifacts` names an absent artifact (or names
`traces` without the default-pass sub-entry) yields an error audit result, not
a fatal run failure, and the audit phase still returns one result per
configured audit. -/
theorem c2_missing_artifact_is_isolated (settings : Settings)
    (audits : List AuditDefn) (artifacts : ArtifactSet) (w : List String)
    (auditDefn : AuditDefn) (name : String)
    (hgate : Runner.settingsGateOk artifacts settings = true)
    (hconf : auditDefn ∈ audits)
    (hname : name ∈ auditDefn.implementation.meta.requiredArtifacts)
    (hmissing : lookupArtifact artifacts name = none ∨
      (name = "traces" ∧ ∀ v, lookupArtifact artifacts name = some v →
        Runner.hasDefaultPassTrace v = false)) :
    (∃ msg, Runner._runAudit auditDefn artifacts
        { settings := settings, lighthouseRunWarnings := w } =
        generateErrorAuditResult auditDefn.implementation msg) ∧
    Runner._runAudits settings audits artifacts w =
      .ok (audits.map (fun d => Runner._runAudit d artifacts
        { settings := settings, lighthouseRunWarnings := w })) := by
  constructor
  · obtain ⟨e, he⟩ : ∃ e, Runner.checkRequiredArtifacts artifacts
        auditDefn.implementation.meta.requiredArtifacts = .error e := by
      cases hc : Runner.checkRequiredArtifacts artifacts
          auditDefn.implementation.meta.requiredArtifacts with
      | error e => exact ⟨e, rfl⟩
      | ok u =>
          exfalso
          cases u
          have hok := Runner.checkRequiredArtifacts_ok hc name hname
          obtain ⟨e', he'⟩ := Runner.checkArtifactOk_fails hmissing
          rw [hok] at he'
          exact Except.noConfusion he'
    exact ⟨jsErrorDisplayMessage e, by simp only [Runner._runAudit, he]⟩
  · simp only [Runner._runAudits, if_pos hgate]

def c2Audit : AuditImpl :=
  { meta := { id := "c2-audit", title := "C2", requiredArtifacts := ["ScriptElements"] }
    defaultOptions := []
    auditFn := fun _ _ => .ok { score := some 1, details := none } }

def c2AuditDefn : AuditDefn := { implementation := c2Audit, options := [] }

/-- C2 witness: a concrete audit requiring an artifact the set lacks, next to
an unaffected audit, made concrete through the theorem. -/
theorem c2_witness :
    (∃ msg, Runner._runAudit c2AuditDefn exampleArtifacts
        { settings := exampleSettings, lighthouseRunWarnings := [] } =
        generateErrorAuditResult c2AuditDefn.implementation msg) ∧
    Runner._runAudits exampleSettings [exampleAuditDefn, c2AuditDefn]
        exampleArtifacts [] =
      .ok ([exampleAuditDefn, c2AuditDefn].map (fun d => Runner._runAudit d
        exampleArtifacts
        { settings := exampleSettings, lighthouseRunWarnings := [] })) :=
  c2_missing_artifact_is_isolated exampleSettings [exampleAuditDefn, c2AuditDefn]
    exampleArtifacts [] c2AuditDefn "ScriptElements" rfl
    (List.mem_cons_of_mem _ (List.mem_cons_self _ _))
    (List.mem_cons_self _ _) (Or.inl rfl)

/-- C9: when every required artifact is present and error-free, the audit's
scoring logic is invoked with the view restricted to exactly the declared
`requiredArtifacts` names (each mapped to the full set's value), and the view
answers `undefined` for any name outside that list. -/
theorem c9_restricted_artifact_view (auditDefn : AuditDefn)
    (artifacts : ArtifactSet) (shared : Runner.SharedContext)
    (hok : Runner.checkRequiredArtifacts artifacts
      auditDefn.implementation.meta.requiredArtifacts = .ok ()) :
    ((Runner.restrictArtifacts artifacts
        auditDefn.implementation.meta.requiredArtifacts).map Prod.fst =
      auditDefn.implementation.meta.requiredArtifacts) ∧
    (∀ n, lookupArtifact (Runner.restrictArtifacts artifacts
        auditDefn.implementation.meta.requiredArtifacts) n =
      if n ∈ auditDefn.implementation.meta.requiredArtifacts then
        lookupArtifact artifacts n
      else none) ∧
    Runner._runAudit auditDefn artifacts shared =
      (match auditDefn.implementation.auditFn
          (Runner.restrictArtifacts artifacts
            auditDefn.implementation.meta.requiredArtifacts)
          { options := Runner.jsObjectAssign auditDefn.implementation.defaultOptions
              auditDefn.options
            settings := shared.settings
            lighthouseRunWarnings := shared.lighthouseRunWarnings } with
        | .ok product => generateAuditResult auditDefn.implementation product
        | .error err =>
            generateErrorAuditResult auditDefn.implementation
              (jsErrorDisplayMessage err)) := by
  refine ⟨?_, ?_, ?_⟩
  · exact Runner.restrictArtifacts_keys _ _
      (fun n hn => Runner.checkArtifactOk_isSome
        (Runner.checkRequiredArtifacts_ok hok n hn))
  · intro n
    exact Runner.restrictArtifacts_lookup artifacts _ n
  · simp only [Runner._runAudit, hok]

/-- C9 witness: the theorem applied to the example audit over the example
artifact set. -/
theorem c9_witness :
    ((Runner.restrictArtifacts exampleArtifacts
        exampleAuditDefn.implementation.meta.requiredArtifacts).map Prod.fst =
      exampleAuditDefn.implementation.meta.requiredArtifacts) ∧
    (∀ n, lookupArtifact (Runner.restrictArtifacts exampleArtifacts
        exampleAuditDefn.implementation.meta.requiredArtifacts) n =
      if n ∈ exampleAuditDefn.implementation.meta.requiredArtifacts then
        lookupArtifact exampleArtifacts n
      else none) ∧
    Runner._runAudit exampleAuditDefn exampleArtifacts
        { settings := exampleSettings, lighthouseRunWarnings := [] } =
      (match exampleAuditDefn.implementation.auditFn
          (Runner.restrictArtifacts exampleArtifacts
            exampleAuditDefn.implementation.meta.requiredArtifacts)
          { options := Runner.jsObjectAssign
              exampleAuditDefn.implementation.defaultOptions exampleAuditDefn.options
            settings := exampleSettings
            lighthouseRunWarnings := [] } with
        | .ok product => generateAuditResult exampleAuditDefn.implementation product
        | .error err =>
            generateErrorAuditResult exampleAuditDefn.implementation
              (jsErrorDisplayMessage err)) :=
  c9_restricted_artifact_view exampleAuditDefn exampleArtifacts
    { settings := exampleSettings, lighthouseRunWarnings := [] } rfl

/-- `sub` occurs inside `s` as a contiguous substring. -/
def strContains (s sub : String) : Prop :=
  sub.toList <:+: s.toList

instance (s sub : String) : Decidable (strContains s sub) :=
  inferInstanceAs (Decidable (sub.toList <:+: s.toList))

namespace Runner

/-- Names that all check out can be dropped from the front of the
required-artifacts loop. -/
lemma checkRequiredArtifacts_append_ok {artifacts : ArtifactSet}
    {l1 : List String} (rest : List String)
    (hpre : ∀ n ∈ l1, checkArtifactOk artifacts n = .ok ()) :
    checkRequiredArtifacts artifacts (l1 ++ rest) =
      checkRequiredArtifacts artifacts rest := by
  induction l1 with
  | nil => rfl
  | cons m l1' ih =>
      rw [List.cons_append]
      simp only [checkRequiredArtifacts, hpre m (List.mem_cons_self m l1')]
      exact ih (fun n hn => hpre n (List.mem_cons_of_mem m hn))

/-- An error-marker artifact (other than `traces`) fails its check with the
"encountered an error" message built from the marker's own message. -/
lemma checkArtifactOk_error_marker {artifacts : ArtifactSet} {X : String}
    {e : LHErrorData} (hX : lookupArtifact artifacts X = some (.err e))
    (hXtr : X ≠ "traces") :
    checkArtifactOk artifacts X =
      .error { message := "Required " ++ X ++ " gatherer encountered an error: " ++ e.message
               friendlyMessage := none
               expected := true } := by
  simp only [checkArtifactOk, hX]
  rw [if_neg (fun hcon => hXtr hcon.1)]

end Runner

def c3Audit : AuditImpl :=
  { meta := { id := "c3-audit", title := "C3", requiredArtifacts := ["Y", "X"] }
    defaultOptions := []
    auditFn := fun _ _ => .ok { score := some 1, details := none } }

def c3AuditDefn : AuditDefn := { implementation := c3Audit, options := [] }

def c3Marker : LHErrorData :=
  { code := "ERR", message := "boom", friendlyMessage := none,
    lhrRuntimeError := false, isLHError := true }

/-- An artifact set where the required artifact `Y` is absent while the
required artifact `X` holds an error marker. -/
def c3Artifacts : ArtifactSet := [("X", .err c3Marker)]

/-- C3 counterexample: the audit requires `Y` (absent) before `X` (an error
marker), so its error result reports the missing `Y` and does not contain the
marker's message `boom` — the claim's unguarded "message contains that
marker's message" fails. -/
theorem c3_counterexample :
    ("X" ∈ c3AuditDefn.implementation.meta.requiredArtifacts) ∧
    lookupArtifact c3Artifacts "X" = some (.err c3Marker) ∧
    Runner._runAudit c3AuditDefn c3Artifacts
        { settings := exampleSettings, lighthouseRunWarnings := [] } =
      generateErrorAuditResult c3Audit "Required Y gatherer did not run." ∧
    ¬ strContains "Required Y gatherer did not run." c3Marker.message :=
  ⟨by decide, rfl, rfl, by decide⟩

/-- C3 (amended): if `X` is the first required artifact that fails validation
(every earlier name checks out) and `X` is not the specially-treated `traces`
artifact, then an error-marker value for `X` makes the audit's result an error
result whose message contains the marker's message; and any audit that does
not require `X` produces the same result it would have produced had `X` held
anything else. -/
theorem c3_error_marker_amended (auditDefn : AuditDefn) (artifacts : ArtifactSet)
    (shared : Runner.SharedContext) (X : String) (e : LHErrorData)
    (l1 l2 : List String)
    (hreq : auditDefn.implementation.meta.requiredArtifacts = l1 ++ X :: l2)
    (hpre : ∀ n ∈ l1, Runner.checkArtifactOk artifacts n = .ok ())
    (hX : lookupArtifact artifacts X = some (.err e))
    (hXtr : X ≠ "traces") :
    (Runner._runAudit auditDefn artifacts shared =
      generateErrorAuditResult auditDefn.implementation
        ("Required " ++ X ++ " gatherer encountered an error: " ++ e.message)) ∧
    strContains ("Required " ++ X ++ " gatherer encountered an error: " ++ e.message)
      e.message ∧
    (∀ (auditDefn' : AuditDefn) (artifacts' : ArtifactSet),
      (∀ n, n ≠ X → lookupArtifact artifacts' n = lookupArtifact artifacts n) →
      X ∉ auditDefn'.implementation.meta.requiredArtifacts →
      Runner._runAudit auditDefn' artifacts' shared =
        Runner._runAudit auditDefn' artifacts shared) := by
  refine ⟨?_, ?_, ?_⟩
  · have hcheck : Runner.checkRequiredArtifacts artifacts
        auditDefn.implementation.meta.requiredArtifacts =
        .error { message := "Required " ++ X ++ " gatherer encountered an error: " ++ e.message
                 friendlyMessage := none
                 expected := true } := by
      rw [hreq, Runner.checkRequiredArtifacts_append_ok (X :: l2) hpre]
      simp only [Runner.checkRequiredArtifacts,
        Runner.checkArtifactOk_error_marker hX hXtr]
    simp only [Runner._runAudit, hcheck]
    rfl
  · refine ⟨("Required " ++ X ++ " gatherer encountered an error: ").toList, [], ?_⟩
    simp [String.toList]
  · intro auditDefn' artifacts' hagree hnotreq
    exact Runner._runAudit_congr
      (fun n hn => hagree n (fun hnx => hnotreq (hnx ▸ hn)))

def c3WitAudit : AuditImpl :=
  { meta := { id := "c3-wit-audit", title := "C3W", requiredArtifacts := ["X"] }
    defaultOptions := []
    auditFn := fun _ _ => .ok { score := some 1, details := none } }

def c3WitAuditDefn : AuditDefn := { implementation := c3WitAudit, options := [] }

/-- C3 witness: the amended theorem applied where `X` is the first (and only)
required artifact. -/
theorem c3_witness :
    (Runner._runAudit c3WitAuditDefn c3Artifacts
        { settings := exampleSettings, lighthouseRunWarnings := [] } =
      generateErrorAuditResult c3WitAuditDefn.implementation
        ("Required " ++ "X" ++ " gatherer encountered an error: " ++ c3Marker.message)) ∧
    strContains ("Required " ++ "X" ++ " gatherer encountered an error: " ++ c3Marker.message)
      c3Marker.message ∧
    (∀ (auditDefn' : AuditDefn) (artifacts' : ArtifactSet),
      (∀ n, n ≠ "X" → lookupArtifact artifacts' n = lookupArtifact c3Artifacts n) →
      "X" ∉ auditDefn'.implementation.meta.requiredArtifacts →
      Runner._runAudit auditDefn' artifacts'
          { settings := exampleSettings, lighthouseRunWarnings := [] } =
        Runner._runAudit auditDefn' c3Artifacts
          { settings := exampleSettings, lighthouseRunWarnings := [] }) :=
  c3_error_marker_amended c3WitAuditDefn c3Artifacts
    { settings := exampleSettings, lighthouseRunWarnings := [] } "X" c3Marker
    [] [] rfl (by intro n hn; exact absurd hn (List.not_mem_nil n)) rfl
    (by decide)

namespace Runner

/-- The scan finds nothing exactly when no value in the list is a promotable
marker. -/
lemma scanRuntimeError_eq_none {l : List ArtifactValue} :
    scanRuntimeError l = none ↔ ∀ v ∈ l, isRuntimeErrorMarker v = false := by
  induction l with
  | nil => simp [scanRuntimeError]
  | cons v rest ih =>
      cases v
      case err e =>
        simp only [scanRuntimeError]
        by_cases hflag : (e.isLHError && e.lhrRuntimeError) = true
        · rw [if_pos hflag]
          constructor
          · intro h; exact Option.noConfusion h
          · intro h
            have := h (ArtifactValue.err e) (List.mem_cons_self _ _)
            rw [isRuntimeErrorMarker] at this
            rw [hflag] at this
            exact Bool.noConfusion this
        · rw [if_neg hflag]
          rw [ih]
          constructor
          · intro h w hw
            rcases List.mem_cons.mp hw with rfl | hmem
            · rw [isRuntimeErrorMarker]
              exact Bool.of_not_eq_true hflag
            · exact h w hmem
          · intro h w hw
            exact h w (List.mem_cons_of_mem _ hw)
      all_goals
        simp only [scanRuntimeError]
        rw [ih]
        constructor
        · intro h w hw
          rcases List.mem_cons.mp hw with rfl | hmem
          · rfl
          · exact h w hmem
        · intro h w hw
          exact h w (List.mem_cons_of_mem _ hw)

end Runner

/-- The runtime-error extractor as the claim words it: the designated
`PageLoadError` artifact is scanned first, and the remaining artifact values
are scanned only when `PageLoadError` is absent.  Stated only to compare with
the source's `Runner.getArtifactRuntimeError`. -/
def claimedRuntimeErrorExtractor (artifacts : ArtifactSet) : Option RuntimeError :=
  match lookupArtifact artifacts "PageLoadError" with
  | some v => Runner.scanRuntimeError [v]
  | none => Runner.scanRuntimeError (artifacts.map Prod.snd)

def c4Marker : LHErrorData :=
  { code := "NO_FCP", message := "m", friendlyMessage := none,
    lhrRuntimeError := true, isLHError := true }

/-- A set whose `PageLoadError` artifact is present but is ordinary data,
while another artifact carries a promotable error marker. -/
def c4Artifacts : ArtifactSet :=
  [("PageLoadError", .num 7), ("ScriptElements", .err c4Marker)]

/-- C4 counterexample: the code scans the remaining artifact values even when
`PageLoadError` is present (here as plain data) and returns the other
promotable marker, while the claim's "only if it is absent falls back"
extractor returns nothing. -/
theorem c4_counterexample :
    Runner.getArtifactRuntimeError c4Artifacts = some { code := "NO_FCP", message := "m" } ∧
    claimedRuntimeErrorExtractor c4Artifacts = none ∧
    Runner.getArtifactRuntimeError c4Artifacts ≠ claimedRuntimeErrorExtractor c4Artifacts :=
  ⟨rfl, rfl, by decide⟩

/-- C4 (amended): the extractor scans the `PageLoadError` artifact first and
then — whether or not `PageLoadError` is present or promotable — every value
of the ArtifactSet, returning the first promotable `{code, message}` marker in
that order; hence a promotable `PageLoadError` always wins, an absent
`PageLoadError` reduces the scan to the artifact values, and the result is
`none` exactly when no promotable marker exists anywhere. -/
theorem c4_runtime_error_scan_amended (artifacts : ArtifactSet) :
    (Runner.getArtifactRuntimeError artifacts =
      Runner.scanRuntimeError
        ((lookupArtifact artifacts "PageLoadError").toList ++ artifacts.map Prod.snd)) ∧
    (∀ e : LHErrorData, lookupArtifact artifacts "PageLoadError" = some (.err e) →
      e.isLHError = true → e.lhrRuntimeError = true →
      Runner.getArtifactRuntimeError artifacts = some (Runner.runtimeErrorOf e)) ∧
    (lookupArtifact artifacts "PageLoadError" = none →
      Runner.getArtifactRuntimeError artifacts =
        Runner.scanRuntimeError (artifacts.map Prod.snd)) ∧
    (Runner.getArtifactRuntimeError artifacts = none ↔
      ∀ v ∈ (lookupArtifact artifacts "PageLoadError").toList ++ artifacts.map Prod.snd,
        Runner.isRuntimeErrorMarker v = false) := by
  refine ⟨rfl, ?_, ?_, ?_⟩
  · intro e hple h1 h2
    simp only [Runner.getArtifactRuntimeError, hple, Option.toList_some,
      List.cons_append, Runner.scanRuntimeError]
    rw [if_pos (Bool.and_eq_true_iff.mpr ⟨h1, h2⟩)]
  · intro hple
    simp only [Runner.getArtifactRuntimeError, hple, Option.toList_none,
      List.nil_append]
  · exact Runner.scanRuntimeError_eq_none

def c4bArtifacts : ArtifactSet := [("PageLoadError", .err c4Marker)]

/-- C4 witness: a promotable `PageLoadError` is promoted, through the amended
theorem. -/
theorem c4_witness :
    Runner.getArtifactRuntimeError c4bArtifacts = some (Runner.runtimeErrorOf c4Marker) :=
  (c4_runtime_error_scan_amended c4bArtifacts).2.1 c4Marker rfl rfl rfl

/-- The matched marker's message as the claim words it: the friendly message
whenever one is present, the raw technical message otherwise.  Stated only to
compare with the message the source builds (`Runner.runtimeErrorOf`). -/
def claimedMarkerMessage (e : LHErrorData) : String :=
  match e.friendlyMessage with
  | some f => f
  | none => e.message

def c10Marker : LHErrorData :=
  { code := "ERRC", message := "raw technical", friendlyMessage := some "",
    lhrRuntimeError := true, isLHError := true }

def c10Artifacts : ArtifactSet := [("PageLoadError", .err c10Marker)]

/-- C10 counterexample: a marker whose friendly message is present but empty.
JS `friendlyMessage || message` treats the empty string as falsy, so the code
returns the raw technical message while the claim ("friendly message when one
is present") demands the empty friendly message. -/
theorem c10_counterexample :
    c10Marker.friendlyMessage = some "" ∧
    Runner.getArtifactRuntimeError c10Artifacts =
      some { code := "ERRC", message := "raw technical" } ∧
    claimedMarkerMessage c10Marker = "" ∧
    (Runner.getArtifactRuntimeError c10Artifacts).map RuntimeError.message ≠
      some (claimedMarkerMessage c10Marker) :=
  ⟨rfl, rfl, rfl, by decide⟩

/-- C10 (amended): whenever the extractor returns a result, the result is the
`{code, message}` pair of a promotable marker from the scan list, and its
message is the marker's friendly message when a non-empty one is present and
the marker's raw technical message otherwise. -/
theorem c10_runtime_error_message_amended (artifacts : ArtifactSet)
    (r : RuntimeError) (h : Runner.getArtifactRuntimeError artifacts = some r) :
    ∃ e : LHErrorData,
      ArtifactValue.err e ∈
        (lookupArtifact artifacts "PageLoadError").toList ++ artifacts.map Prod.snd ∧
      e.isLHError = true ∧ e.lhrRuntimeError = true ∧
      r.code = e.code ∧
      r.message =
        (match e.friendlyMessage with
          | some f => if f = "" then e.message else f
          | none => e.message) := by
  obtain ⟨e, hmem, h1, h2, hr⟩ := Runner.scanRuntimeError_some h
  refine ⟨e, hmem, h1, h2, by rw [hr]; rfl, ?_⟩
  rw [hr]
  cases hf : e.friendlyMessage <;>
    simp [Runner.runtimeErrorOf, jsStringOrElse, hf]

/-- C10 witness: the amended theorem at the concrete marker with the empty
friendly message. -/
theorem c10_witness :
    ∃ e : LHErrorData,
      ArtifactValue.err e ∈
        (lookupArtifact c10Artifacts "PageLoadError").toList ++ c10Artifacts.map Prod.snd ∧
      e.isLHError = true ∧ e.lhrRuntimeError = true ∧
      ({ code := "ERRC", message := "raw technical" } : RuntimeError).code = e.code ∧
      ({ code := "ERRC", message := "raw technical" } : RuntimeError).message =
        (match e.friendlyMessage with
          | some f => if f = "" then e.message else f
          | none => e.message) :=
  c10_runtime_error_message_amended c10Artifacts
    { code := "ERRC", message := "raw technical" } rfl

/-- C5: the timing aggregator concatenates the collection-phase entries with
the orchestrator's own entries, dedupes the pairs through a `Map` keyed on
`startTime` (so the value stored for a start time is the last occurrence in
the concatenation, and the surviving keys are pairwise distinct), rounds each
surviving entry's `startTime` and `duration` to hundredths, and reports as the
run total the duration of the (first) entry named `lh:runner:run`, or zero
when no such entry exists. -/
theorem c5_timing_aggregation (artifacts : ArtifactSet)
    (runnerEntries : List TimingEntry) :
    ((Runner._getTiming artifacts runnerEntries).entries =
      (jsMapFromList ((Runner.timingFromArtifacts artifacts ++ runnerEntries).map
        (fun e => (e.startTime, e)))).map (fun p => Runner.roundEntry p.2)) ∧
    (∀ t : ℚ,
      (jsMapFromList ((Runner.timingFromArtifacts artifacts ++ runnerEntries).map
        (fun e => (e.startTime, e)))).find? (fun p => decide (p.1 = t)) =
      (((Runner.timingFromArtifacts artifacts ++ runnerEntries).reverse).find?
        (fun e => decide (e.startTime = t))).map (fun e => (e.startTime, e))) ∧
    ((jsMapFromList ((Runner.timingFromArtifacts artifacts ++ runnerEntries).map
        (fun e => (e.startTime, e)))).map Prod.fst).Nodup ∧
    ((Runner._getTiming artifacts runnerEntries).total =
      match (Runner._getTiming artifacts runnerEntries).entries.find?
          (fun e => decide (e.name = "lh:runner:run")) with
      | some e => e.duration
      | none => 0) := by
  refine ⟨rfl, ?_, Runner.jsMapFromList_keys_nodup _, rfl⟩
  intro t
  rw [Runner.jsMapFromList_find?]
  rw [show ((Runner.timingFromArtifacts artifacts ++ runnerEntries).map
      (fun e => (e.startTime, e))).reverse =
    (Runner.timingFromArtifacts artifacts ++ runnerEntries).reverse.map
      (fun e => (e.startTime, e)) from
    (List.map_reverse _ _).symm]
  rw [List.find?_map]
  rfl

namespace Runner

lemma except_bind_ok {α β : Type} (a : α) (k : α → Except JsError β) :
    (Except.ok a >>= k) = k a := rfl

lemma except_bind_error {α β : Type} (e : JsError) (k : α → Except JsError β) :
    ((Except.error e : Except JsError α) >>= k) = Except.error e := rfl

/-- A failing gather phase fails the whole run with the same error. -/
lemma run_of_gatherPhase_error {runOpts : RunOpts} {env : RunEnv} {e : JsError}
    (h : gatherPhase runOpts env = .error e) :
    run runOpts env = .error e := by
  simp only [run, h, except_bind_error]

/-- On the audit-only path, a loaded artifact set whose `URL.requestedUrl` is
empty stops the gather phase with the empty-URL configuration error. -/
lemma gatherPhase_empty_url {runOpts : RunOpts} {env : RunEnv}
    {artifacts : ArtifactSet} {f : String}
    (h1 : runOpts.config.settings.auditMode.isTruthy = true)
    (h2 : runOpts.config.settings.gatherMode.isTruthy = false)
    (hload : env.loadArtifacts (_getArtifactsPath runOpts.config.settings) =
      .ok artifacts)
    (hurl : lookupArtifact artifacts "URL" = some (.url "" f)) :
    gatherPhase runOpts env = .error (mkError "Cannot run audit mode on empty URL") := by
  have hread : readUrlRequestedUrl artifacts = .ok none := by
    simp [readUrlRequestedUrl, hurl]
  simp only [gatherPhase, h1, h2, Bool.not_false, Bool.and_true, hload,
    except_bind_ok, hread]
  rfl

/-- On the audit-only path, a supplied URL that differs (even modulo fragment)
from the persisted one stops the gather phase with the different-URL
configuration error. -/
lemma gatherPhase_different_url {runOpts : RunOpts} {env : RunEnv}
    {artifacts : ArtifactSet} {r f u : String}
    (h1 : runOpts.config.settings.auditMode.isTruthy = true)
    (h2 : runOpts.config.settings.gatherMode.isTruthy = false)
    (hload : env.loadArtifacts (_getArtifactsPath runOpts.config.settings) =
      .ok artifacts)
    (hurl : lookupArtifact artifacts "URL" = some (.url r f))
    (hr : r ≠ "")
    (hu : runOpts.url = some u)
    (hune : u ≠ "")
    (hneq : equalWithExcludedFragments u r = false) :
    gatherPhase runOpts env =
      .error (mkError "Cannot run audit mode on different URL") := by
  have hread : readUrlRequestedUrl artifacts = .ok (some r) := by
    simp only [readUrlRequestedUrl, hurl, if_neg hr]
  have hcond : (u != "" && !equalWithExcludedFragments u r) = true := by
    simp [hneq, hune]
  simp only [gatherPhase, h1, h2, Bool.not_false, Bool.and_true, hload,
    except_bind_ok, hread, hu, hcond]
  rfl

/-- On the audit-only path, a supplied URL that matches the persisted one
modulo fragment lets the gather phase succeed with the loaded artifacts. -/
lemma gatherPhase_matching_url {runOpts : RunOpts} {env : RunEnv}
    {artifacts : ArtifactSet} {r f u : String}
    (h1 : runOpts.config.settings.auditMode.isTruthy = true)
    (h2 : runOpts.config.settings.gatherMode.isTruthy = false)
    (hload : env.loadArtifacts (_getArtifactsPath runOpts.config.settings) =
      .ok artifacts)
    (hurl : lookupArtifact artifacts "URL" = some (.url r f))
    (hr : r ≠ "")
    (hu : runOpts.url = some u)
    (heq : equalWithExcludedFragments u r = true) :
    gatherPhase runOpts env =
      .ok { artifacts := artifacts, requestedUrl := r, saved := none } := by
  have hread : readUrlRequestedUrl artifacts = .ok (some r) := by
    simp only [readUrlRequestedUrl, hurl, if_neg hr]
  have hcond : (u != "" && !equalWithExcludedFragments u r) = false := by
    simp [heq]
  simp only [gatherPhase, h1, h2, Bool.not_false, Bool.and_true, hload,
    except_bind_ok, hread, hu, hcond]
  rfl

end Runner

/-- C7: in analyze-only mode the run fails fatally — before any audit is even
considered — when the loaded ArtifactSet's `requestedUrl` is empty, and when a
supplied URL differs from the persisted one modulo fragment; a supplied URL
equal to the persisted one modulo fragment passes the gate and the gather
phase succeeds with the loaded artifacts. -/
theorem c7_audit_mode_url_validation :
    (∀ (runOpts : Runner.RunOpts) (env : Runner.RunEnv) (artifacts : ArtifactSet) (f : String),
      runOpts.config.settings.auditMode.isTruthy = true →
      runOpts.config.settings.gatherMode.isTruthy = false →
      env.loadArtifacts (Runner._getArtifactsPath runOpts.config.settings) = .ok artifacts →
      lookupArtifact artifacts "URL" = some (.url "" f) →
      Runner.run runOpts env = .error (mkError "Cannot run audit mode on empty URL")) ∧
    (∀ (runOpts : Runner.RunOpts) (env : Runner.RunEnv) (artifacts : ArtifactSet)
        (r f u : String),
      runOpts.config.settings.auditMode.isTruthy = true →
      runOpts.config.settings.gatherMode.isTruthy = false →
      env.loadArtifacts (Runner._getArtifactsPath runOpts.config.settings) = .ok artifacts →
      lookupArtifact artifacts "URL" = some (.url r f) →
      r ≠ "" →
      runOpts.url = some u →
      u ≠ "" →
      equalWithExcludedFragments u r = false →
      Runner.run runOpts env = .error (mkError "Cannot run audit mode on different URL")) ∧
    (∀ (runOpts : Runner.RunOpts) (env : Runner.RunEnv) (artifacts : ArtifactSet)
        (r f u : String),
      runOpts.config.settings.auditMode.isTruthy = true →
      runOpts.config.settings.gatherMode.isTruthy = false →
      env.loadArtifacts (Runner._getArtifactsPath runOpts.config.settings) = .ok artifacts →
      lookupArtifact artifacts "URL" = some (.url r f) →
      r ≠ "" →
      runOpts.url = some u →
      equalWithExcludedFragments u r = true →
      Runner.gatherPhase runOpts env =
        .ok { artifacts := artifacts, requestedUrl := r, saved := none }) := by
  refine ⟨?_, ?_, ?_⟩
  · intro runOpts env artifacts f h1 h2 hload hurl
    exact Runner.run_of_gatherPhase_error
      (Runner.gatherPhase_empty_url h1 h2 hload hurl)
  · intro runOpts env artifacts r f u h1 h2 hload hurl hr hu hune hneq
    exact Runner.run_of_gatherPhase_error
      (Runner.gatherPhase_different_url h1 h2 hload hurl hr hu hune hneq)
  · intro runOpts env artifacts r f u h1 h2 hload hurl hr hu heq
    exact Runner.gatherPhase_matching_url h1 h2 hload hurl hr hu heq

/-- A stub environment whose persistence always returns the given artifact
set and whose collection pipeline always fails. -/
def stubEnv (arts : ArtifactSet) : Runner.RunEnv :=
  { loadArtifacts := fun _ => .ok arts
    gather := fun _ => .error (mkError "no browser available")
    timingEntriesFromRunner := [] }

def analyzeOnlySettings : Settings :=
  { locale := none, gatherMode := .off, auditMode := .on, output := [],
    budgets := none, rest := [] }

def c7Config : Runner.Config :=
  { settings := analyzeOnlySettings, audits := some [exampleAuditDefn], passes := false }

def c7aArtifacts : ArtifactSet := [("URL", .url "" "x")]

def c7bArtifacts : ArtifactSet :=
  [("URL", .url "https://example.com/" "https://example.com/")]

/-- C7 witness: the three URL-gate outcomes at concrete analyze-only runs. -/
theorem c7_witness :
    Runner.run { config := c7Config, url := none } (stubEnv c7aArtifacts) =
      .error (mkError "Cannot run audit mode on empty URL") ∧
    Runner.run { config := c7Config, url := some "https://other.com/" }
        (stubEnv c7bArtifacts) =
      .error (mkError "Cannot run audit mode on different URL") ∧
    Runner.gatherPhase { config := c7Config, url := some "https://example.com/#frag" }
        (stubEnv c7bArtifacts) =
      .ok { artifacts := c7bArtifacts, requestedUrl := "https://example.com/",
            saved := none } :=
  ⟨c7_audit_mode_url_validation.1 _ _ c7aArtifacts "x" rfl rfl rfl rfl,
   c7_audit_mode_url_validation.2.1 _ _ c7bArtifacts "https://example.com/"
     "https://example.com/" "https://other.com/" rfl rfl rfl rfl
     (by decide) rfl (by decide) (by decide),
   c7_audit_mode_url_validation.2.2 _ _ c7bArtifacts "https://example.com/"
     "https://example.com/" "https://example.com/#frag" rfl rfl rfl rfl
     (by decide) rfl (by decide)⟩

/-- C8: with `gatherMode` on and `auditMode` off and a valid supplied URL, the
run gathers fresh artifacts for the canonicalized URL, persists them to the
default or overridden artifacts path, and terminates successfully with no
result payload — the audit phase never runs. -/
theorem c8_collect_only_mode (runOpts : Runner.RunOpts) (env : Runner.RunEnv)
    (u cu fu : String) (artifacts : ArtifactSet)
    (hgm : runOpts.config.settings.gatherMode.isTruthy = true)
    (ham : runOpts.config.settings.auditMode.isTruthy = false)
    (hurl : runOpts.url = some u)
    (hu : u ≠ "")
    (hcanon : canonicalizeUrl u = some cu)
    (hpasses : runOpts.config.passes = true)
    (hgather : env.gather cu = .ok artifacts)
    (hgatherUrl : lookupArtifact artifacts "URL" = some (.url cu fu)) :
    Runner.run runOpts env =
      .ok { result := none,
            saved := some (Runner._getArtifactsPath runOpts.config.settings, artifacts) } ∧
    (∃ finalU, lookupArtifact artifacts "URL" = some (.url cu finalU)) := by
  constructor
  · have hphase : Runner.gatherPhase runOpts env =
        .ok { artifacts := artifacts, requestedUrl := cu,
              saved := some (Runner._getArtifactsPath runOpts.config.settings,
                artifacts) } := by
      simp only [Runner.gatherPhase, ham, Bool.false_and, hurl, if_neg hu, hcanon,
        hpasses, Bool.not_true, hgather, Runner.except_bind_ok, hgm]
      rfl
    simp only [Runner.run, hphase, Runner.except_bind_ok, hgm, ham,
      Bool.not_false, Bool.and_true]
    rfl
  · exact ⟨fu, hgatherUrl⟩

def gatherOnlySettings : Settings :=
  { locale := none, gatherMode := .on, auditMode := .off, output := [],
    budgets := none, rest := [] }

def c8Artifacts : ArtifactSet :=
  [("URL", .url "https://example.com/" "https://example.com/")]

def c8Env : Runner.RunEnv :=
  { loadArtifacts := fun _ => .error (mkError "no saved artifacts")
    gather := fun _ => .ok c8Artifacts
    timingEntriesFromRunner := [] }

def c8Opts : Runner.RunOpts :=
  { config := { settings := gatherOnlySettings, audits := none, passes := true }
    url := some "https://example.com/" }

/-- C8 witness: a concrete collect-only run returns `undefined` and persists
the gathered artifacts to the default `latest-run` path. -/
theorem c8_witness :
    Runner.run c8Opts c8Env =
      .ok { result := none,
            saved := some (Runner._getArtifactsPath gatherOnlySettings, c8Artifacts) } ∧
    (∃ finalU, lookupArtifact c8Artifacts "URL" =
      some (.url "https://example.com/" finalU)) :=
  c8_collect_only_mode c8Opts c8Env "https://example.com/" "https://example.com/"
    "https://example.com/" c8Artifacts rfl rfl rfl (by decide) (by decide) rfl rfl rfl

namespace Runner

/-- Without embedded gather-time settings the compatibility check never
fires. -/
lemma settingsGateOk_of_no_settings {artifacts : ArtifactSet} {s : Settings}
    (h : lookupArtifact artifacts "settings" = none) :
    settingsGateOk artifacts s = true := by
  simp only [settingsGateOk, h]

/-- Embedded settings that differ outside the overridden fields fail the
compatibility check. -/
lemma settingsGateOk_incompatible {artifacts : ArtifactSet} {s gs : Settings}
    (h : lookupArtifact artifacts "settings" = some (.settingsVal gs))
    (hne : gs.rest ≠ s.rest) :
    settingsGateOk artifacts s = false := by
  simp only [settingsGateOk, h]
  refine decide_eq_false (fun hcon => hne ?_)
  have hrest := congrArg (fun x => Settings.rest x) hcon
  exact hrest

/-- Incompatible embedded settings abort the audit phase before any audit
runs, for every configured audit list. -/
lemma _runAudits_incompatible {artifacts : ArtifactSet} {s gs : Settings}
    (audits : List AuditDefn) (w : List String)
    (h : lookupArtifact artifacts "settings" = some (.settingsVal gs))
    (hne : gs.rest ≠ s.rest) :
    _runAudits s audits artifacts w = .error settingsMismatchError := by
  simp only [_runAudits, settingsGateOk_incompatible h hne]
  rfl

/-- On the audit-only path with no URL supplied for the invocation, the
gather phase succeeds with the loaded artifacts. -/
lemma gatherPhase_no_supplied_url {runOpts : RunOpts} {env : RunEnv}
    {artifacts : ArtifactSet} {r f : String}
    (h1 : runOpts.config.settings.auditMode.isTruthy = true)
    (h2 : runOpts.config.settings.gatherMode.isTruthy = false)
    (hload : env.loadArtifacts (_getArtifactsPath runOpts.config.settings) =
      .ok artifacts)
    (hurl : lookupArtifact artifacts "URL" = some (.url r f))
    (hr : r ≠ "")
    (hu : runOpts.url = none) :
    gatherPhase runOpts env =
      .ok { artifacts := artifacts, requestedUrl := r, saved := none } := by
  have hread : readUrlRequestedUrl artifacts = .ok (some r) := by
    simp only [readUrlRequestedUrl, hurl, if_neg hr]
  simp only [gatherPhase, h1, h2, Bool.not_false, Bool.and_true, hload,
    except_bind_ok, hread, hu]
  rfl

end Runner

/-- C6: two RunSettings are compatible exactly when they agree on every field
other than `locale`, `gatherMode`, `auditMode`, `output` and `budgets`; the
check fires only when the ArtifactSet embeds gather-time settings (so never on
a path whose artifacts carry none); incompatible embedded settings abort the
audit phase before any audit runs, and on the analyze-only path they abort the
whole run with the fatal configuration error. -/
theorem c6_settings_compatibility :
    (∀ gs s : Settings,
      (Runner.normalizeSettings gs = Runner.normalizeSettings s) ↔ gs.rest = s.rest) ∧
    (∀ (s : Settings) (audits : List AuditDefn) (artifacts : ArtifactSet)
        (w : List String),
      lookupArtifact artifacts "settings" = none →
      Runner._runAudits s audits artifacts w =
        .ok (audits.map (fun d => Runner._runAudit d artifacts
          { settings := s, lighthouseRunWarnings := w }))) ∧
    (∀ (s gs : Settings) (audits : List AuditDefn) (artifacts : ArtifactSet)
        (w : List String),
      lookupArtifact artifacts "settings" = some (.settingsVal gs) →
      gs.rest ≠ s.rest →
      Runner._runAudits s audits artifacts w = .error Runner.settingsMismatchError) ∧
    (∀ (runOpts : Runner.RunOpts) (env : Runner.RunEnv) (artifacts : ArtifactSet)
        (gs : Settings) (r f : String) (audits : List AuditDefn),
      runOpts.config.settings.auditMode.isTruthy = true →
      runOpts.config.settings.gatherMode.isTruthy = false →
      env.loadArtifacts (Runner._getArtifactsPath runOpts.config.settings) =
        .ok artifacts →
      lookupArtifact artifacts "URL" = some (.url r f) →
      r ≠ "" →
      runOpts.url = none →
      runOpts.config.audits = some audits →
      lookupArtifact artifacts "settings" = some (.settingsVal gs) →
      gs.rest ≠ runOpts.config.settings.rest →
      Runner.run runOpts env = .error Runner.settingsMismatchError) := by
  refine ⟨?_, ?_, ?_, ?_⟩
  · intro gs s
    constructor
    · intro h
      have hrest := congrArg (fun x => Settings.rest x) h
      exact hrest
    · intro h
      simp only [Runner.normalizeSettings, h]
  · intro s audits artifacts w h
    simp only [Runner._runAudits, Runner.settingsGateOk_of_no_settings h]
    rfl
  · intro s gs audits artifacts w h hne
    exact Runner._runAudits_incompatible audits w h hne
  · intro runOpts env artifacts gs r f audits h1 h2 hload hurl hr hu haudits hset hne
    have hphase := Runner.gatherPhase_no_supplied_url h1 h2 hload hurl hr hu
    have hra := Runner._runAudits_incompatible (s := runOpts.config.settings)
      audits [] hset hne
    simp only [Runner.run, hphase, Runner.except_bind_ok, h2, Bool.false_and,
      haudits, hra, Runner.except_bind_error]
    rfl

def c6GatherSettings : Settings :=
  { locale := none, gatherMode := .on, auditMode := .off, output := [],
    budgets := none, rest := [("throttlingMethod", "devtools")] }

def c6AuditSettings : Settings :=
  { locale := some "de", gatherMode := .off, auditMode := .on, output := ["json"],
    budgets := none, rest := [] }

def c6Artifacts : ArtifactSet :=
  [("URL", .url "https://example.com/" "https://example.com/"),
   ("settings", .settingsVal c6GatherSettings)]

def c6Config : Runner.Config :=
  { settings := c6AuditSettings
    audits := some [exampleAuditDefn]
    passes := false }

def c6Opts : Runner.RunOpts := { config := c6Config, url := none }

/-- C6 witness: a concrete analyze-only run over artifacts gathered under
different throttling settings fails with the settings-mismatch error. -/
theorem c6_witness :
    ((Runner.normalizeSettings c6GatherSettings =
        Runner.normalizeSettings c6AuditSettings) ↔
      c6GatherSettings.rest = c6AuditSettings.rest) ∧
    Runner._runAudits c6AuditSettings [exampleAuditDefn] exampleArtifacts [] =
      .ok ([exampleAuditDefn].map (fun d => Runner._runAudit d exampleArtifacts
        { settings := c6AuditSettings, lighthouseRunWarnings := [] })) ∧
    Runner._runAudits c6AuditSettings [exampleAuditDefn] c6Artifacts [] =
      .error Runner.settingsMismatchError ∧
    Runner.run c6Opts (stubEnv c6Artifacts) = .error Runner.settingsMismatchError :=
  ⟨c6_settings_compatibility.1 c6GatherSettings c6AuditSettings,
   c6_settings_compatibility.2.1 c6AuditSettings [exampleAuditDefn]
     exampleArtifacts [] rfl,
   c6_settings_compatibility.2.2.1 c6AuditSettings c6GatherSettings
     [exampleAuditDefn] c6Artifacts [] rfl (by decide),
   c6_settings_compatibility.2.2.2 c6Opts (stubEnv c6Artifacts) c6Artifacts
     c6GatherSettings "https://example.com/" "https://example.com/"
     [exampleAuditDefn] rfl rfl rfl rfl (by decide) rfl rfl rfl (by decide)⟩
